import Mathlib

/-!
Verification of the data-construction pipeline of the herding dissertation
repository (`AED_codebook.ipynb`).  The pipeline is embedded shallowly:

* a pandas dataframe column of floats that may contain `NaN` is modelled as a
  `List (Option ℚ)` (`none` = `NaN`), and the NumPy reductions `np.sum` /
  `np.mean` are modelled with their actual `NaN` semantics: `np.sum []` is the
  number `0`, while any `NaN` summand makes the result `NaN`, and
  `np.mean []` is `NaN`;
* the returns dataframe `self.df` of class `DataProcessor` is a `List RetRow`
  carrying the `ts_code`, `trade_date` and `daily_log_return` columns;
* real-valued operations (`np.log`, the `** (1/2)` in `calculate_CSSD`) are
  modelled over `ℝ`.
-/

namespace AED

/-- Models `NaN`-propagating addition on a float column (`none` is `NaN`). -/
def optAdd : Option ℚ → Option ℚ → Option ℚ
  | some a, some b => some (a + b)
  | _, _ => none

/-- Models `NaN`-propagating subtraction on a float column. -/
def optSub : Option ℚ → Option ℚ → Option ℚ
  | some a, some b => some (a - b)
  | _, _ => none

/-- Models the `NaN`-propagating absolute value `np.abs`. -/
def optAbs : Option ℚ → Option ℚ
  | some a => some |a|
  | none => none

/-- Models `NaN`-propagating multiplication. -/
def optMul : Option ℚ → Option ℚ → Option ℚ
  | some a, some b => some (a * b)
  | _, _ => none

/-- Models `np.sum`: the empty sum is the number `0`; any `NaN` summand makes the
whole sum `NaN`. -/
def npSum : List (Option ℚ) → Option ℚ
  | [] => some 0
  | x :: xs => optAdd x (npSum xs)

/-- Models `np.mean`: `NaN` on the empty list, otherwise `np.sum` divided by the
length (`NaN` as soon as one entry is `NaN`). -/
def npMean (xs : List (Option ℚ)) : Option ℚ :=
  if xs.isEmpty then none
  else
    match npSum xs with
    | some s => some (s / (xs.length : ℚ))
    | none => none

/-- One row of the returns dataframe `self.df` of `DataProcessor`, once the
`daily_log_return` column exists: columns `ts_code`, `trade_date`,
`daily_log_return`. -/
structure RetRow where
  tsCode : String
  tradeDate : String
  ret : Option ℚ
deriving DecidableEq

/-- Models `self.df['ts_code'].nunique()`: the number of distinct equity codes in the
whole dataframe. -/
def nunique (df : List RetRow) : ℕ :=
  ((df.map RetRow.tsCode).dedup).length

/-- Models `DataProcessor.get_returns_on_date`:
`self.df.loc[self.df['trade_date'] == date, 'daily_log_return'].tolist()`. -/
def get_returns_on_date (df : List RetRow) (date : String) : List (Option ℚ) :=
  (df.filter (fun r => r.tradeDate = date)).map RetRow.ret

/-- Models `DataProcessor.calculate_return_market`:
`np.mean(self.get_returns_on_date(date))`. -/
def calculate_return_market (df : List RetRow) (date : String) : Option ℚ :=
  npMean (get_returns_on_date df date)

/-- Models `DataProcessor.calculate_CSAD`:
`(1/self.df['ts_code'].nunique()) * np.sum(np.abs([x - R_m for x in returns_on_date]))`. -/
def calculate_CSAD (df : List RetRow) (date : String) (Rm : Option ℚ) : Option ℚ :=
  match npSum ((get_returns_on_date df date).map (fun x => optAbs (optSub x Rm))) with
  | some s => some ((1 / (nunique df : ℚ)) * s)
  | none => none

/-- Models `DataProcessor.calculate_CSSD`:
`(1/(self.df['ts_code'].nunique() - 1)) * np.sum([(x - R_m) ** 2 for x in returns_on_date]) ** (1/2)`.
By Python operator precedence the exponent `(1/2)` applies to `np.sum(...)`
alone, and only afterwards is the result multiplied by
`1/(nunique - 1)`.  (For `nunique = 1` Python raises `ZeroDivisionError`;
theorems about this function therefore assume `2 ≤ nunique df`.) -/
noncomputable def calculate_CSSD (df : List RetRow) (date : String) (Rm : Option ℚ) :
    Option ℝ :=
  match npSum ((get_returns_on_date df date).map (fun x => optMul (optSub x Rm) (optSub x Rm))) with
  | some s => some ((1 / ((nunique df : ℝ) - 1)) * Real.sqrt ((s : ℚ) : ℝ))
  | none => none

/-- Code-point lexicographic comparison of character lists — the string
order pandas sorts by. -/
def charListLTb : List Char → List Char → Bool
  | [], [] => false
  | [], _ :: _ => true
  | _ :: _, [] => false
  | a :: as, b :: bs =>
    if a.val < b.val then true
    else if a.val = b.val then charListLTb as bs else false

/-- Strict code-point lexicographic order on strings. -/
def strLTb (a b : String) : Bool :=
  charListLTb a.data b.data

/-- Reflexive code-point lexicographic order on strings. -/
def strLEb (a b : String) : Bool :=
  !(strLTb b a)

/-- Key order used by `DataProcessor.sort_data`:
`sort_values(by=['ts_code', 'trade_date'])`, i.e. lexicographic on the pair
(`ts_code`, `trade_date`). -/
def rowLEb (a b : RetRow) : Bool :=
  if a.tsCode = b.tsCode then strLEb a.tradeDate b.tradeDate
  else strLTb a.tsCode b.tsCode

/-- Stable insertion of one row into a list sorted by `rowLEb`. -/
def insertRow (r : RetRow) : List RetRow → List RetRow
  | [] => [r]
  | x :: xs => if rowLEb r x then r :: x :: xs else x :: insertRow r xs

/-- Models `DataProcessor.sort_data`: stable sort of the returns dataframe by
(`ts_code`, `trade_date`). -/
def sort_data (df : List RetRow) : List RetRow :=
  df.foldr insertRow []

/-- One step of collecting distinct values in order of first appearance. -/
def insertNew (acc : List String) (d : String) : List String :=
  if d ∈ acc then acc else acc ++ [d]

/-- Models `pandas.Series.unique()`: the distinct values of a column, in order of
first appearance. -/
def uniqueFirst (l : List String) : List String :=
  l.foldl insertNew []

/-- One row of the stringency dataframe `self.df_stringency`: a `Date` plus
the other columns as an association list from column name to value.
(In the pipeline the stringency source is produced by
`GetStringencyData.filter_data`, which has already replaced `NaN` cells by
`0`, so cell values are plain numbers.) -/
structure PolicyRow where
  date : String
  values : List (String × ℚ)

/-- One row of the covid dataframe `self.df_covid` (`date`,
`rolling_deaths`). -/
structure CovidRow where
  date : String
  rollingDeaths : ℚ

/-- The `cols_to_extract` list of `DataProcessor.process_data`. -/
def colsToExtract : List String :=
  ["StringencyIndex_WeightedAverage", "C6E_Stay at home requirements",
   "PopulationVaccinated", "C2E_Workplace closing", "C3E_Cancel public events",
   "C4E_Restrictions on gatherings", "C5E_Close public transport",
   "C7E_Restrictions on internal movement", "C8E_International travel controls"]

/-- The double dictionary lookup of `DataProcessor.process_data`:
`stringency_dict = self.df_stringency.set_index('Date').to_dict()` followed by
`stringency_dict.get(col_name, {})` and then `.get(date, np.nan)`.
A missing column or a missing date yields `np.nan`, i.e. `none`. -/
def policyLookup (strg : List PolicyRow) (col date : String) : Option ℚ :=
  match strg.find? (fun r => r.date = date) with
  | some r => r.values.lookup col
  | none => none

/-- One row of the assembled specification dataframe `self.df_spec`:
`{'date': date, 'R_m': R_m, 'CSAD': CSAD, 'CSSD': CSSD, **stringency,
'covid_deaths': covid}`.  The `stringency` columns are kept as an association
list in `cols_to_extract` order. -/
structure SpecRow where
  date : String
  Rm : Option ℚ
  CSAD : Option ℚ
  CSSD : Option ℝ
  stringency : List (String × Option ℚ)
  covidDeaths : ℚ

/-- The body of the `for date in self.df.trade_date.unique():` loop of
`DataProcessor.process_data`: the specification row built for one date. -/
noncomputable def buildSpecRow (df : List RetRow) (strg : List PolicyRow)
    (covid : List CovidRow) (d : String) : SpecRow :=
  { date := d
    Rm := calculate_return_market df d
    CSAD := calculate_CSAD df d (calculate_return_market df d)
    CSSD := calculate_CSSD df d (calculate_return_market df d)
    stringency := colsToExtract.map (fun c => (c, policyLookup strg c d))
    covidDeaths :=
      match covid.find? (fun r => r.date = d) with
      | some r => r.rollingDeaths
      | none => 0 }

/-- Models `DataProcessor.process_data`, from the point where the
`daily_log_return` column exists (its first statement,
`self.calculate_log_returns()`, only rewrites that column and touches no
`ts_code` or `trade_date`; the lemma `calculate_log_returns_keys` below
justifies taking the dataframe with its return column as the input here):
one specification row per element of `self.df.trade_date.unique()`, in that
order. -/
noncomputable def process_data (df : List RetRow) (strg : List PolicyRow)
    (covid : List CovidRow) : List SpecRow :=
  (uniqueFirst (df.map RetRow.tradeDate)).map (buildSpecRow df strg covid)

/-- One row of the raw price dataframe handed to `DataProcessor`
(`ts_code`, `trade_date`, `close`); a `close` cell that is missing or
non-numeric is `none` (`pd.to_numeric(..., errors='coerce')`). -/
structure RawRow where
  tsCode : String
  tradeDate : String
  close : Option ℚ
deriving DecidableEq

/-- One row after `calculate_log_returns`: the new `daily_log_return`
column is real-valued (`np.log`). -/
structure LogRow where
  tsCode : String
  tradeDate : String
  ret : Option ℝ

/-- Models `100 * (np.log(close) - np.log(close.shift(1)))` for one row: defined
only when both the row's close and the previous row's close are present and
positive (`np.log` of a missing or non-positive float does not yield a
finite defined value). -/
noncomputable def logReturn (c p : Option ℚ) : Option ℝ :=
  match c, p with
  | some a, some b =>
    if 0 < a ∧ 0 < b then some (100 * (Real.log (a : ℝ) - Real.log (b : ℝ))) else none
  | _, _ => none

/-- Models `close.shift(1)`: the close column shifted down by one row over the WHOLE
dataframe — the shift does not restart at equity-group boundaries. -/
def shiftedCloses (rows : List RawRow) : List (Option ℚ) :=
  none :: (rows.map RawRow.close).dropLast

/-- Models `DataProcessor.calculate_log_returns`:
`close = pd.to_numeric(self.df['close'], errors='coerce').astype('float')`,
`self.df['daily_log_return'] = 100 * (np.log(close) - np.log(close.shift(1)))`,
`self.df.loc[self.df['trade_date'] == '2020-01-02', 'daily_log_return'] = np.nan`. -/
noncomputable def calculate_log_returns (rows : List RawRow) : List LogRow :=
  (rows.zip (shiftedCloses rows)).map (fun rp =>
    { tsCode := rp.1.tsCode
      tradeDate := rp.1.tradeDate
      ret := if rp.1.tradeDate = "2020-01-02" then none else logReturn rp.1.close rp.2 })

/-- One row of the instrument reference list `self.df_codes` of
`GetChineseEquityData` (columns `code` and `exchange`). -/
structure CodeRow where
  code : String
  exchange : String
deriving DecidableEq

/-- Models `GetChineseEquityData.get_codes`:
`','.join([f"{row['code'][0:6]}.SH" if row['exchange'] == 'Shanghai' else f"{row['code'][0:6]}.SZ" for _, row in self.df_codes.iterrows()])`. -/
def get_codes (rows : List CodeRow) : String :=
  String.intercalate ","
    (rows.map (fun r =>
      if r.exchange = "Shanghai" then r.code.take 6 ++ ".SH" else r.code.take 6 ++ ".SZ"))

/-- The emission the claim describes for one row: the first six characters of
the code followed by the suffix `.SH` exactly when the exchange is
`Shanghai`, and `.SZ` in every other case. -/
def claimCodeOfRow (r : CodeRow) : String :=
  r.code.take 6 ++ (if r.exchange = "Shanghai" then ".SH" else ".SZ")

/-- An upstream request `pro.daily(..., start_date=str(a), end_date=str(b))`:
of the available trading dates (`univ`, in feed order) it returns those in
the inclusive range `[a, b]`.  Dates are abstracted as naturals. -/
def fetchRange (univ : List ℕ) (a b : ℕ) : List ℕ :=
  univ.filter (fun d => decide (a ≤ d ∧ d ≤ b))

/-- The number of iterations of the `while t < self.end_date:` loop of
`GetChineseEquityData.get_returns_data`: `t` takes the values
`start + 21*k`, and `start + 21*k < endd` is equivalent to
`k < ⌈(endd - start) / 21⌉ = (endd - start + 20) / 21` in `ℕ`. -/
def numWindows (start endd : ℕ) : ℕ :=
  (endd - start + 20) / 21

/-- The successive values taken by `t` in `get_returns_data`
(`t = self.start_date`, then `t += 21` while `t < self.end_date`). -/
def windowStarts (start endd : ℕ) : List ℕ :=
  (List.range (numWindows start endd)).map (fun k => start + 21 * k)

/-- Models `GetChineseEquityData.get_returns_data`: one request per window
`[t, t + 20]`, results concatenated with `pd.concat` in window order. -/
def get_returns_data (univ : List ℕ) (start endd : ℕ) : List ℕ :=
  ((windowStarts start endd).map (fun t => fetchRange univ t (t + 20))).flatten

/-- Models `df['China'].rolling(7).mean()` on a series of daily death counts: the
trailing 7-day mean over the date and its 6 predecessors, `NaN` for the
first 6 entries. -/
def rollingMeanSeven (deaths : List ℚ) : List (Option ℚ) :=
  (List.range deaths.length).map (fun i =>
    if 6 ≤ i then some ((((deaths.drop (i - 6)).take 7).sum) / 7) else none)

/-- Models `.replace(np.nan, 0)`: every `NaN` cell becomes the number `0`. -/
def replaceNanZero (l : List (Option ℚ)) : List ℚ :=
  l.map (fun x => x.getD 0)

/-- The `rolling_deaths` column produced by `GetCovidData.get_and_rolling`:
`df['rolling_deaths'] = df['China'].rolling(7).mean().replace(np.nan, 0)`. -/
def get_and_rolling (deaths : List ℚ) : List ℚ :=
  replaceNanZero (rollingMeanSeven deaths)

/-- Defined from the claim's words, for comparison with `calculate_CSAD`:
`csad = (1/N) × Σ |r_i − market_return|` where `N` is the number of equities
with a defined return on the date (undefined returns excluded from both the
count and the sum) and `market_return` is the mean of those defined
returns. -/
def csadClaim (xs : List (Option ℚ)) : Option ℚ :=
  if xs.reduceOption.isEmpty then none
  else
    some ((1 / (xs.reduceOption.length : ℚ)) *
      ((xs.reduceOption.map
        (fun r => |r - xs.reduceOption.sum / (xs.reduceOption.length : ℚ)|)).sum))

/-- Defined from the claim's words, for comparison with `calculate_CSSD`:
`cssd = sqrt( (1/(N−1)) × Σ (r_i − market_return)^2 )`, the square root
applied to the whole quotient, `N` the number of equities with a defined
return on the date and `market_return` the mean of those returns. -/
noncomputable def cssdClaim (xs : List (Option ℚ)) : Option ℝ :=
  if xs.reduceOption.length < 2 then none
  else
    some (Real.sqrt ((1 / ((xs.reduceOption.length : ℝ) - 1)) *
      (((xs.reduceOption.map
        (fun r => (r - xs.reduceOption.sum / (xs.reduceOption.length : ℚ)) ^ 2)).sum : ℚ) : ℝ)))

/-- Defined from the claim's words, for comparison with `get_and_rolling`:
the rolling-deaths value is the trailing 7-day mean of daily deaths, and is
undefined — not some numeric default — for the first 6 days of the series. -/
def rollingClaim (deaths : List ℚ) : List (Option ℚ) :=
  (List.range deaths.length).map (fun i =>
    if 6 ≤ i then some ((((deaths.drop (i - 6)).take 7).sum) / 7) else none)

/-! ### Concrete datasets used to settle the claims on explicit inputs -/

/-- Three equities `A`, `B`, `C`, each with the single trade date
`2020-02-03` and defined log returns `1`, `2`, `3` — the scenario of the
spec's own test list. -/
def dfABC : List RetRow :=
  [⟨"A", "2020-02-03", some 1⟩, ⟨"B", "2020-02-03", some 2⟩, ⟨"C", "2020-02-03", some 3⟩]

/-- Three distinct equities, but on `2020-02-03` only `A` and `B` have a
(defined) return; `C` trades only on `2020-02-04`. -/
def dfTwoOfThree : List RetRow :=
  [⟨"A", "2020-02-03", some 0⟩, ⟨"B", "2020-02-03", some 2⟩, ⟨"C", "2020-02-04", some 5⟩]

/-- Two equities on one date, one of them with an undefined (`NaN`)
return. -/
def dfMixed : List RetRow :=
  [⟨"A", "2020-02-03", some 1⟩, ⟨"B", "2020-02-03", none⟩]

/-- Equity `B` trades on three dates, equity `A` only on the first and the
third; rows as handed to `sort_data`. -/
def dfGapped : List RetRow :=
  [⟨"B", "2020-01-01", some 1⟩, ⟨"B", "2020-01-02", some 1⟩, ⟨"B", "2020-01-03", some 1⟩,
   ⟨"A", "2020-01-01", some 1⟩, ⟨"A", "2020-01-03", some 1⟩]

/-- A returns dataframe with a single row, whose date `2020-03-02` is absent
from the policy source `policyMiss`. -/
def dfSolo : List RetRow :=
  [⟨"A", "2020-03-02", some 1⟩]

/-- A policy source holding only the date `2020-03-03`. -/
def policyMiss : List PolicyRow :=
  [⟨"2020-03-03", [("StringencyIndex_WeightedAverage", 1)]⟩]

/-- Price rows for two equities (`000001` then `600000`), sorted by
(`ts_code`, `trade_date`), away from the `2020-01-02` reset date. -/
def rawTwoEquities : List RawRow :=
  [⟨"000001", "2020-02-03", some 100⟩, ⟨"000001", "2020-02-04", some 110⟩,
   ⟨"600000", "2020-02-03", some 121⟩, ⟨"600000", "2020-02-04", some 133⟩]

/-- Available trading dates `1, …, 45`. -/
def univ45 : List ℕ :=
  List.range' 1 45

/-- A constant series of seven daily death counts. -/
def deathsSeven : List ℚ :=
  [7, 7, 7, 7, 7, 7, 7]

/-! ### Helper lemmas -/

/-- Lemma: `calculate_log_returns` only writes the `daily_log_return` column: the
`ts_code` and `trade_date` cells of every row are untouched. -/
theorem calculate_log_returns_keys (rows : List RawRow) :
    (calculate_log_returns rows).map (fun r => (r.tsCode, r.tradeDate)) =
      rows.map (fun r => (r.tsCode, r.tradeDate)) := by
  have hlen : (shiftedCloses rows).length = rows.length ∨ rows = [] := by
    cases rows with
    | nil => exact Or.inr rfl
    | cons a l =>
      left
      simp [shiftedCloses]
  rcases hlen with h | h
  · calc (calculate_log_returns rows).map (fun r => (r.tsCode, r.tradeDate))
        = (rows.zip (shiftedCloses rows)).map (fun rp => (rp.1.tsCode, rp.1.tradeDate)) := by
          simp [calculate_log_returns]
      _ = ((rows.zip (shiftedCloses rows)).map Prod.fst).map (fun r => (r.tsCode, r.tradeDate)) := by
          simp [List.map_map]
      _ = rows.map (fun r => (r.tsCode, r.tradeDate)) := by
          rw [List.map_fst_zip]
          omega
  · subst h
    simp [calculate_log_returns]

/-- Lemma: `np.sum` over a column without `NaN` is the plain sum. -/
theorem npSum_map_some (l : List ℚ) : npSum (l.map some) = some l.sum := by
  induction l with
  | nil => simp [npSum]
  | cons a l ih => simp [npSum, optAdd, ih]

/-- Any `NaN` entry poisons `np.sum`. -/
theorem npSum_eq_none_of_mem (xs : List (Option ℚ)) (h : none ∈ xs) :
    npSum xs = none := by
  induction xs with
  | nil => simp at h
  | cons x xs ih =>
    rcases List.mem_cons.mp h with h0 | h1
    · subst h0
      simp [npSum, optAdd]
    · cases x <;> simp [npSum, optAdd, ih h1]

/-- Lemma: `np.mean` over a nonempty column without `NaN`. -/
theorem npMean_map_some (l : List ℚ) (h : l ≠ []) :
    npMean (l.map some) = some (l.sum / (l.length : ℚ)) := by
  simp [npMean, h, npSum_map_some]

/-- A column none of whose entries is `NaN` is the `some`-image of a plain
list. -/
theorem exists_map_some (xs : List (Option ℚ)) (h : ∀ x ∈ xs, x ≠ none) :
    ∃ l : List ℚ, xs = l.map some := by
  induction xs with
  | nil => exact ⟨[], rfl⟩
  | cons x xs ih =>
    obtain ⟨l, hl⟩ := ih (fun y hy => h y (List.mem_cons_of_mem _ hy))
    cases x with
    | none => exact absurd rfl (h none (List.mem_cons_self _ _))
    | some a => exact ⟨a :: l, by simp [hl]⟩

/-- Evaluation of `calculate_CSAD` on a date whose returns are all defined:
the Option plumbing disappears and the code's arithmetic remains —
the absolute deviations are averaged over the dataset-wide distinct-equity
count `nunique df`, not over the number of returns on the date. -/
theorem calculate_CSAD_eval (df : List RetRow) (d : String) (l : List ℚ) (m : ℚ)
    (hl : get_returns_on_date df d = l.map some) :
    calculate_CSAD df d (some m) =
      some ((1 / (nunique df : ℚ)) * ((l.map (fun r => |r - m|)).sum)) := by
  have hmap : (get_returns_on_date df d).map (fun x => optAbs (optSub x (some m))) =
      (l.map (fun r => |r - m|)).map some := by
    rw [hl, List.map_map, List.map_map]
    simp [Function.comp, optAbs, optSub]
  rw [calculate_CSAD, hmap, npSum_map_some]

/-- Evaluation of `calculate_CSSD` on a date whose returns are all defined. -/
theorem calculate_CSSD_eval (df : List RetRow) (d : String) (l : List ℚ) (m : ℚ)
    (hl : get_returns_on_date df d = l.map some) :
    calculate_CSSD df d (some m) =
      some ((1 / ((nunique df : ℝ) - 1)) *
        Real.sqrt (((l.map (fun r => (r - m) * (r - m))).sum : ℚ) : ℝ)) := by
  have hmap : (get_returns_on_date df d).map
      (fun x => optMul (optSub x (some m)) (optSub x (some m))) =
      (l.map (fun r => (r - m) * (r - m))).map some := by
    rw [hl, List.map_map, List.map_map]
    simp [Function.comp, optMul, optSub]
  rw [calculate_CSSD, hmap, npSum_map_some]

/-- A sum of nonnegative rationals vanishes only when every summand does. -/
theorem list_sum_eq_zero_iff (l : List ℚ) (h : ∀ x ∈ l, 0 ≤ x) :
    l.sum = 0 ↔ ∀ x ∈ l, x = 0 := by
  induction l with
  | nil => simp
  | cons a l ih =>
    have ha : 0 ≤ a := h a (List.mem_cons_self _ _)
    have hl : ∀ x ∈ l, 0 ≤ x := fun x hx => h x (List.mem_cons_of_mem _ hx)
    have hsum : 0 ≤ l.sum := List.sum_nonneg hl
    constructor
    · intro h0
      have ha0 : a = 0 ∧ l.sum = 0 := by
        constructor <;> [linarith [List.sum_cons (a := a) (l := l) ▸ h0]; skip]
        · linarith [List.sum_cons (a := a) (l := l) ▸ h0]
      intro x hx
      rcases List.mem_cons.mp hx with h1 | h2
      · exact h1 ▸ ha0.1
      · exact ((ih hl).mp ha0.2) x h2
    · intro hall
      have : a = 0 := hall a (List.mem_cons_self _ _)
      have : l.sum = 0 := (ih hl).mpr (fun x hx => hall x (List.mem_cons_of_mem _ hx))
      simp_all

/-- Lemma: `insertNew` keeps the accumulator free of duplicates. -/
theorem insertNew_nodup (acc : List String) (d : String) (h : acc.Nodup) :
    (insertNew acc d).Nodup := by
  by_cases hd : d ∈ acc
  · simpa [insertNew, hd] using h
  · rw [insertNew, if_neg hd]
    exact h.append (List.nodup_singleton d) (by simpa using hd)

/-- Membership after one `insertNew` step. -/
theorem mem_insertNew (acc : List String) (d x : String) :
    x ∈ insertNew acc d ↔ x ∈ acc ∨ x = d := by
  by_cases hd : d ∈ acc
  · simp only [insertNew, if_pos hd]
    constructor
    · exact Or.inl
    · rintro (h | rfl)
      · exact h
      · exact hd
  · simp [insertNew, hd]

/-- The fold behind `uniqueFirst` preserves freedom from duplicates. -/
theorem foldl_insertNew_nodup (l : List String) :
    ∀ acc : List String, acc.Nodup → (l.foldl insertNew acc).Nodup := by
  induction l with
  | nil => intro acc h; simpa using h
  | cons d l ih =>
    intro acc h
    exact ih (insertNew acc d) (insertNew_nodup acc d h)

/-- Membership in the fold behind `uniqueFirst`. -/
theorem mem_foldl_insertNew (l : List String) :
    ∀ (acc : List String) (x : String),
      x ∈ l.foldl insertNew acc ↔ x ∈ acc ∨ x ∈ l := by
  induction l with
  | nil => intro acc x; simp
  | cons d l ih =>
    intro acc x
    rw [List.foldl_cons, ih, mem_insertNew]
    simp only [List.mem_cons]
    tauto

/-- Lemma: `pandas.Series.unique()` returns each value once. -/
theorem uniqueFirst_nodup (l : List String) : (uniqueFirst l).Nodup :=
  foldl_insertNew_nodup l [] List.nodup_nil

/-- Lemma: `pandas.Series.unique()` returns exactly the values of the column. -/
theorem mem_uniqueFirst (l : List String) (x : String) :
    x ∈ uniqueFirst l ↔ x ∈ l := by
  rw [uniqueFirst, mem_foldl_insertNew]
  simp

/-- The `date` column of the dataframe assembled by `process_data` is
`self.df.trade_date.unique()`, in first-appearance order. -/
theorem process_data_dates (df : List RetRow) (s : List PolicyRow) (c : List CovidRow) :
    (process_data df s c).map SpecRow.date = uniqueFirst (df.map RetRow.tradeDate) := by
  rw [process_data, List.map_map]
  have h : SpecRow.date ∘ buildSpecRow df s c = id := by
    funext d
    rfl
  rw [h, List.map_id]

/-- The stringency cells of the dataframe assembled by `process_data`. -/
theorem process_data_stringency (df : List RetRow) (s : List PolicyRow) (c : List CovidRow) :
    (process_data df s c).map SpecRow.stringency =
      (uniqueFirst (df.map RetRow.tradeDate)).map
        (fun d => colsToExtract.map (fun cn => (cn, policyLookup s cn d))) := by
  rw [process_data, List.map_map]
  rfl

/-- On a date with no rows at all, `np.mean` of the empty return list is
`NaN`. -/
theorem market_empty_date (df : List RetRow) (d : String)
    (h : get_returns_on_date df d = []) :
    calculate_return_market df d = none := by
  rw [calculate_return_market, h]
  simp [npMean]

/-- On a date with no rows at all, `np.sum` of the empty list is the number
`0`, so `calculate_CSAD` silently returns `0`. -/
theorem csad_empty_date (df : List RetRow) (d : String) (Rm : Option ℚ)
    (h : get_returns_on_date df d = []) :
    calculate_CSAD df d Rm = some 0 := by
  rw [calculate_CSAD, h]
  simp [npSum]

/-- On a date with no rows at all, `calculate_CSSD` silently returns `0`. -/
theorem cssd_empty_date (df : List RetRow) (d : String) (Rm : Option ℚ)
    (h : get_returns_on_date df d = []) :
    calculate_CSSD df d Rm = some 0 := by
  rw [calculate_CSSD, h]
  simp [npSum]

/-- Lemma: subtraction with a `NaN` left operand is `NaN`. -/
theorem optSub_none (Rm : Option ℚ) : optSub none Rm = none := by
  cases Rm <;> rfl

/-- On a date all of whose returns are `NaN`, the market mean, CSAD and CSSD
are all `NaN`. -/
theorem aggregates_none_of_all_none (df : List RetRow) (d : String) (Rm : Option ℚ)
    (hne : get_returns_on_date df d ≠ [])
    (hall : ∀ x ∈ get_returns_on_date df d, x = none) :
    calculate_return_market df d = none ∧
      calculate_CSAD df d Rm = none ∧ calculate_CSSD df d Rm = none := by
  obtain ⟨x0, hx0⟩ := List.exists_mem_of_ne_nil _ hne
  have hx0n : (none : Option ℚ) ∈ get_returns_on_date df d := (hall x0 hx0) ▸ hx0
  refine ⟨?_, ?_, ?_⟩
  · rw [calculate_return_market, npMean, if_neg (by simp [List.isEmpty_iff, hne]),
      npSum_eq_none_of_mem _ hx0n]
  · have hmem : (none : Option ℚ) ∈
        (get_returns_on_date df d).map (fun x => optAbs (optSub x Rm)) := by
      have := List.mem_map_of_mem (fun x => optAbs (optSub x Rm)) hx0n
      simpa [optSub_none, optAbs] using this
    rw [calculate_CSAD, npSum_eq_none_of_mem _ hmem]
  · have hmem : (none : Option ℚ) ∈
        (get_returns_on_date df d).map (fun x => optMul (optSub x Rm) (optSub x Rm)) := by
      have := List.mem_map_of_mem (fun x => optMul (optSub x Rm) (optSub x Rm)) hx0n
      simpa [optSub_none, optMul] using this
    rw [calculate_CSSD, npSum_eq_none_of_mem _ hmem]

/-- Membership in the concatenated window fetches: the windows
`[t, t+20]`, `t = start + 21k`, tile the contiguous range from `start` to
`start + 21·numWindows − 1` with no gap. -/
theorem mem_get_returns_data (univ : List ℕ) (start endd d : ℕ) :
    d ∈ get_returns_data univ start endd ↔
      d ∈ univ ∧ start ≤ d ∧ d < start + 21 * numWindows start endd := by
  rw [get_returns_data]
  constructor
  · intro h
    obtain ⟨s, hs, hds⟩ := List.mem_flatten.mp h
    obtain ⟨t, ht, rfl⟩ := List.mem_map.mp hs
    obtain ⟨k, hk, rfl⟩ := List.mem_map.mp ht
    have hk' := List.mem_range.mp hk
    have hd := List.mem_filter.mp hds
    have hb := of_decide_eq_true hd.2
    exact ⟨hd.1, by omega, by omega⟩
  · rintro ⟨hu, h1, h2⟩
    have h21 : 0 < 21 := by norm_num
    have hdm := Nat.div_add_mod (d - start) 21
    have hmlt : (d - start) % 21 < 21 := Nat.mod_lt _ h21
    refine List.mem_flatten.mpr
      ⟨fetchRange univ (start + 21 * ((d - start) / 21)) (start + 21 * ((d - start) / 21) + 20),
        List.mem_map.mpr ⟨start + 21 * ((d - start) / 21),
          List.mem_map.mpr ⟨(d - start) / 21, List.mem_range.mpr (by omega), rfl⟩, rfl⟩, ?_⟩
    exact List.mem_filter.mpr ⟨hu, decide_eq_true (by omega)⟩

/-- The windows advance in 21-day strides and span 21 days each, so they are
pairwise disjoint: no date is fetched twice. -/
theorem nodup_get_returns_data (univ : List ℕ) (start endd : ℕ) (h : univ.Nodup) :
    (get_returns_data univ start endd).Nodup := by
  rw [get_returns_data, List.nodup_flatten]
  constructor
  · intro s hs
    obtain ⟨t, _, rfl⟩ := List.mem_map.mp hs
    exact h.filter _
  · rw [windowStarts, List.map_map, List.pairwise_map]
    refine (List.pairwise_lt_range _).imp ?_
    intro k1 k2 hk12
    intro a ha1 ha2
    have h1 := of_decide_eq_true (List.mem_filter.mp ha1).2
    have h2 := of_decide_eq_true (List.mem_filter.mp ha2).2
    simp only [Function.comp] at h1 h2
    omega

/-- Index lookup in the `rolling_deaths` column before the seventh day:
the `NaN` produced by `rolling(7).mean()` has been replaced by `0`. -/
theorem rolling_getElem_lt (deaths : List ℚ) (i : ℕ) (h : i < deaths.length)
    (h6 : i < 6) :
    (get_and_rolling deaths)[i]? = some 0 := by
  rw [get_and_rolling, replaceNanZero, rollingMeanSeven, List.getElem?_map, List.getElem?_map,
    List.getElem?_range h]
  simp [Nat.not_le.mpr h6]

/-- Index lookup in the `rolling_deaths` column from the seventh day on:
the mean of the 7-entry window ending at the index. -/
theorem rolling_getElem_ge (deaths : List ℚ) (i : ℕ) (h : i < deaths.length)
    (h6 : 6 ≤ i) :
    (get_and_rolling deaths)[i]? = some ((((deaths.drop (i - 6)).take 7).sum) / 7) := by
  rw [get_and_rolling, replaceNanZero, rollingMeanSeven, List.getElem?_map, List.getElem?_map,
    List.getElem?_range h]
  simp [h6]

/-- The sum of a `k`-entry window of a list, written with explicit indexed
access. -/
theorem sum_take_drop (l : List ℚ) (a : ℕ) :
    ∀ k : ℕ, a + k ≤ l.length →
      ((l.drop a).take k).sum = ∑ j ∈ Finset.range k, l.getD (a + j) 0 := by
  intro k
  induction k with
  | zero => intro _; simp
  | succ k ih =>
    intro hk
    have hk' : a + k ≤ l.length := by omega
    have hak : a + k < l.length := by omega
    rw [List.take_succ, List.sum_append, ih hk', Finset.sum_range_succ]
    congr 1
    rw [List.getElem?_drop, List.getD_eq_getElem?_getD, List.getElem?_eq_getElem hak]
    simp

/-! ### The claims -/

/-- C10: for every row of the instrument reference list, `get_codes` emits
the first six characters of the row's code followed by `.SH` exactly when
the row's exchange equals `Shanghai` and by `.SZ` in every other case, the
emitted codes joined by commas in input order. -/
theorem C10_code_suffixes (rows : List CodeRow) :
    get_codes rows = String.intercalate "," (rows.map claimCodeOfRow) := by
  have h : (fun r : CodeRow =>
      if r.exchange = "Shanghai" then r.code.take 6 ++ ".SH" else r.code.take 6 ++ ".SZ") =
      claimCodeOfRow := by
    funext r
    by_cases hx : r.exchange = "Shanghai" <;> simp [claimCodeOfRow, hx]
  rw [get_codes, h]

set_option maxHeartbeats 1000000 in
/-- C7, counterexample: with trading dates `1..45`, fetching `1..40` in
windows `[1,21]`, `[22,42]` returns the dates `41` and `42`, which one
unbroken request for `1..40` does not return: the two fetches differ. -/
theorem C7_counterexample :
    get_returns_data univ45 1 40 ≠ fetchRange univ45 1 40 ∧
    41 ∈ get_returns_data univ45 1 40 ∧ 41 ∉ fetchRange univ45 1 40 := by
  refine ⟨by decide, by decide, by decide⟩

/-- C7, amended: the windows `[t, t+20]` with `t` advanced in 21-day strides
are pairwise disjoint and tile the contiguous range from `start` to
`start + 21·numWindows − 1`, so the concatenation contains each available
date of that enlarged range exactly once — every date in `[start, end−1]`
is covered, but dates past `end` up to the end of the last window are also
included (and `end` itself is dropped when `end − start` is a positive
multiple of 21). -/
theorem C7_window_tiling (univ : List ℕ) (start endd : ℕ) (h : univ.Nodup) :
    (get_returns_data univ start endd).Nodup ∧
    ∀ d, d ∈ get_returns_data univ start endd ↔
      d ∈ univ ∧ start ≤ d ∧ d < start + 21 * numWindows start endd :=
  ⟨nodup_get_returns_data univ start endd h,
    fun d => mem_get_returns_data univ start endd d⟩

/-- C7, witness: the amended statement evaluated on the dates `1..45` with
the request `1..40`. -/
theorem C7_window_tiling_witness :
    (get_returns_data univ45 1 40).Nodup ∧
    (41 ∈ get_returns_data univ45 1 40 ↔
      41 ∈ univ45 ∧ 1 ≤ 41 ∧ 41 < 1 + 21 * numWindows 1 40) :=
  ⟨(C7_window_tiling univ45 1 40 (by decide)).1,
    (C7_window_tiling univ45 1 40 (by decide)).2 41⟩

/-- C8, counterexample: on a 7-day series the `rolling(7).mean()` column is
`NaN` on the first day, but the emitted `rolling_deaths` column carries the
number `0` there — a numeric default, not an undefined value. -/
theorem C8_counterexample :
    (rollingMeanSeven deathsSeven)[0]? = some none ∧
    (get_and_rolling deathsSeven)[0]? = some 0 ∧
    (rollingClaim deathsSeven)[0]? = some none :=
  ⟨by decide, by decide, by decide⟩

/-- C8, amended: the `rolling_deaths` value equals the trailing 7-day mean
of daily deaths from the seventh day of the series on, and equals `0` (the
`NaN` of the first six days is replaced by `0`, not left undefined) before
that. -/
theorem C8_rolling_amended (deaths : List ℚ) (i : ℕ) (h : i < deaths.length) :
    (6 ≤ i → (get_and_rolling deaths)[i]? =
      some ((∑ j ∈ Finset.range 7, deaths.getD (i - 6 + j) 0) / 7)) ∧
    (i < 6 → (get_and_rolling deaths)[i]? = some 0) := by
  constructor
  · intro h6
    rw [rolling_getElem_ge deaths i h h6, sum_take_drop deaths (i - 6) 7 (by omega)]
  · intro h6
    exact rolling_getElem_lt deaths i h h6

/-- C8, witness: the amended statement evaluated on the 7-day series at the
seventh and the first day. -/
theorem C8_rolling_amended_witness :
    (get_and_rolling deathsSeven)[6]? =
      some ((∑ j ∈ Finset.range 7, deathsSeven.getD (6 - 6 + j) 0) / 7) ∧
    (get_and_rolling deathsSeven)[0]? = some 0 :=
  ⟨(C8_rolling_amended deathsSeven 6 (by decide)).1 (by norm_num),
    (C8_rolling_amended deathsSeven 0 (by decide)).2 (by norm_num)⟩

/-- C5, amended: `process_data` emits exactly one row per distinct
`trade_date` of the return data, in order of first appearance in the
(equity-sorted) dataframe — which need not be ascending date order. -/
theorem C5_rows_per_date (df : List RetRow) (s : List PolicyRow) (c : List CovidRow) :
    (process_data df s c).map SpecRow.date = uniqueFirst (df.map RetRow.tradeDate) ∧
    ((process_data df s c).map SpecRow.date).Nodup ∧
    ∀ d, d ∈ (process_data df s c).map SpecRow.date ↔ d ∈ df.map RetRow.tradeDate := by
  refine ⟨process_data_dates df s c, ?_, ?_⟩
  · rw [process_data_dates]
    exact uniqueFirst_nodup _
  · intro d
    rw [process_data_dates]
    exact mem_uniqueFirst _ d

/-- C5, counterexample: with equity `A` missing `2020-01-02`, the dates of
the assembled table come out as `01, 03, 02` — one row per distinct date,
but not in ascending date order. -/
theorem C5_counterexample :
    (process_data (sort_data dfGapped) [] []).map SpecRow.date =
      ["2020-01-01", "2020-01-03", "2020-01-02"] ∧
    ¬ List.Pairwise (fun a b : String => strLEb a b = true)
      ((process_data (sort_data dfGapped) [] []).map SpecRow.date) := by
  rw [process_data_dates]
  exact ⟨by decide, by decide⟩

/-- C4, amended: for a trade date present in the return data but absent
from the policy source, the assembled row carries `NaN` (an undefined
value, `.get(date, np.nan)`) in the stringency-index cell and in every
requested sub-indicator cell — not the zero default the claim states. -/
theorem C4_policy_miss_nan (df : List RetRow) (s : List PolicyRow) (c : List CovidRow)
    (d : String) (hd : d ∈ df.map RetRow.tradeDate) (hs : ∀ p ∈ s, p.date ≠ d) :
    ∃ r ∈ process_data df s c, r.date = d ∧
      r.stringency = colsToExtract.map (fun cn => (cn, (none : Option ℚ))) := by
  have hfind : s.find? (fun r => r.date = d) = none :=
    List.find?_eq_none.mpr (fun p hp => by simpa using hs p hp)
  refine ⟨buildSpecRow df s c d, ?_, rfl, ?_⟩
  · rw [process_data]
    exact List.mem_map_of_mem _ ((mem_uniqueFirst _ d).mpr hd)
  · show colsToExtract.map (fun cn => (cn, policyLookup s cn d)) = _
    apply List.map_congr_left
    intro cn _
    rw [policyLookup, hfind]

/-- C4, witness: the amended statement evaluated on a one-row return
dataframe whose date is absent from the policy source. -/
theorem C4_policy_miss_nan_witness :
    ∃ r ∈ process_data dfSolo policyMiss [], r.date = "2020-03-02" ∧
      r.stringency = colsToExtract.map (fun cn => (cn, (none : Option ℚ))) :=
  C4_policy_miss_nan dfSolo policyMiss [] "2020-03-02" (by decide) (by decide)

/-- C4, counterexample: on that input every one of the nine requested
stringency cells of the assembled row is `NaN`, while the claim requires
them all to be the number `0`. -/
theorem C4_counterexample :
    (process_data dfSolo policyMiss []).map (fun r => r.stringency.map Prod.snd) =
      [List.replicate 9 (none : Option ℚ)] ∧
    List.replicate 9 (none : Option ℚ) ≠ List.replicate 9 (some (0 : ℚ)) := by
  constructor
  · rw [show (fun r : SpecRow => r.stringency.map Prod.snd) =
        (List.map Prod.snd ∘ SpecRow.stringency) from rfl, ← List.map_map,
      process_data_stringency]
    decide
  · decide

/-- C6, amended: on a date whose rows all carry an undefined return, the
market mean, CSAD and CSSD are all undefined; but on a date with no rows at
all (`N = 0` because the return list is empty) the market mean is undefined
while CSAD and CSSD are silently the number `0` — `np.sum` of an empty list
is `0`, not `NaN`. -/
theorem C6_zero_defined_returns (df : List RetRow) (d : String)
    (_hk : 2 ≤ nunique df) :
    ((get_returns_on_date df d ≠ [] ∧ ∀ x ∈ get_returns_on_date df d, x = none) →
      calculate_return_market df d = none ∧
      calculate_CSAD df d (calculate_return_market df d) = none ∧
      calculate_CSSD df d (calculate_return_market df d) = none) ∧
    (get_returns_on_date df d = [] →
      calculate_return_market df d = none ∧
      calculate_CSAD df d (calculate_return_market df d) = some 0 ∧
      calculate_CSSD df d (calculate_return_market df d) = some 0) := by
  constructor
  · rintro ⟨hne, hall⟩
    exact aggregates_none_of_all_none df d _ hne hall
  · intro h
    exact ⟨market_empty_date df d h, csad_empty_date df d _ h, cssd_empty_date df d _ h⟩

/-- C6, witness: the amended statement evaluated at a date absent from a
three-equity dataframe. -/
theorem C6_zero_defined_returns_witness :
    calculate_return_market dfABC "2020-09-09" = none ∧
    calculate_CSAD dfABC "2020-09-09" (calculate_return_market dfABC "2020-09-09") = some 0 ∧
    calculate_CSSD dfABC "2020-09-09" (calculate_return_market dfABC "2020-09-09") = some 0 :=
  (C6_zero_defined_returns dfABC "2020-09-09" (by decide)).2 (by decide)

/-- C6, counterexample: for a trade date with no returns at all (`N = 0`),
`calculate_CSAD` silently reports the value `0` instead of an undefined
value. -/
theorem C6_counterexample :
    calculate_return_market dfABC "2020-09-09" = none ∧
    calculate_CSAD dfABC "2020-09-09" (calculate_return_market dfABC "2020-09-09") = some 0 :=
  ⟨by decide, csad_empty_date dfABC "2020-09-09" _ (by decide)⟩

/-- C2, counterexample: three distinct equities, of which only two trade on
the date, with returns `0` and `2`.  The code divides the absolute
deviations by the dataset-wide distinct-equity count `3` and reports
`2/3`; the claimed per-date formula gives `(1/2)·(1+1) = 1`. -/
theorem C2_counterexample :
    calculate_CSAD dfTwoOfThree "2020-02-03"
        (calculate_return_market dfTwoOfThree "2020-02-03") = some (2 / 3) ∧
    csadClaim (get_returns_on_date dfTwoOfThree "2020-02-03") = some 1 ∧
    ((2 : ℚ) / 3) ≠ 1 := by
  have hl : get_returns_on_date dfTwoOfThree "2020-02-03" = [(0 : ℚ), 2].map some := by
    decide
  have hm : calculate_return_market dfTwoOfThree "2020-02-03" = some 1 := by
    rw [calculate_return_market, hl, npMean_map_some _ (by decide)]
    norm_num
  have hn : nunique dfTwoOfThree = 3 := by decide
  refine ⟨?_, ?_, by norm_num⟩
  · rw [hm, calculate_CSAD_eval dfTwoOfThree "2020-02-03" [0, 2] 1 hl, hn]
    norm_num
  · have hro : (get_returns_on_date dfTwoOfThree "2020-02-03").reduceOption =
        [(0 : ℚ), 2] := by decide
    rw [csadClaim, hro]
    norm_num

/-- C2, amended: on a date whose returns are all defined,
`calculate_CSAD` equals `(1/K) × Σ |r_i − R_m|` where `K` is
`self.df['ts_code'].nunique()`, the number of distinct equities in the
WHOLE dataframe — not the number of returns present on the date; returns
that are undefined are not excluded but poison the result (see the
counterexample and C9). -/
theorem C2_csad_denominator (df : List RetRow) (d : String) (l : List ℚ) (m : ℚ)
    (hl : get_returns_on_date df d = l.map some)
    (hm : calculate_return_market df d = some m) :
    calculate_CSAD df d (calculate_return_market df d) =
      some ((1 / (nunique df : ℚ)) * ((l.map (fun r => |r - m|)).sum)) := by
  rw [hm]
  exact calculate_CSAD_eval df d l m hl

/-- C2, witness: the amended statement evaluated on the three-equity
dataframe with two returns on the date. -/
theorem C2_csad_denominator_witness :
    get_returns_on_date dfTwoOfThree "2020-02-03" = [(0 : ℚ), 2].map some ∧
    calculate_return_market dfTwoOfThree "2020-02-03" = some 1 ∧
    calculate_CSAD dfTwoOfThree "2020-02-03"
        (calculate_return_market dfTwoOfThree "2020-02-03") =
      some ((1 / (nunique dfTwoOfThree : ℚ)) *
        (([(0 : ℚ), 2].map (fun r => |r - 1|)).sum)) := by
  have hl : get_returns_on_date dfTwoOfThree "2020-02-03" = [(0 : ℚ), 2].map some := by
    decide
  have hm : calculate_return_market dfTwoOfThree "2020-02-03" = some 1 := by
    rw [calculate_return_market, hl, npMean_map_some _ (by decide)]
    norm_num
  exact ⟨hl, hm, C2_csad_denominator dfTwoOfThree "2020-02-03" [0, 2] 1 hl hm⟩

/-- C9, counterexample: on a date with one defined and one undefined
return, `np.mean` and hence `calculate_CSAD` are `NaN`: the dispersion is
neither defined nor nonnegative, although the date has a defined return. -/
theorem C9_counterexample :
    (∃ x ∈ get_returns_on_date dfMixed "2020-02-03", x ≠ none) ∧
    calculate_return_market dfMixed "2020-02-03" = none ∧
    calculate_CSAD dfMixed "2020-02-03"
      (calculate_return_market dfMixed "2020-02-03") = none := by
  refine ⟨⟨some 1, by decide, by decide⟩, by decide, by decide⟩

/-- C9, amended: on a date all of whose returns are defined (and at least
one exists), CSAD is a defined value `c ≥ 0`, and `c = 0` exactly when
every return on the date equals the market return. -/
theorem C9_csad_sign (df : List RetRow) (d : String)
    (hne : get_returns_on_date df d ≠ [])
    (hdef : ∀ x ∈ get_returns_on_date df d, x ≠ none) :
    ∃ m c : ℚ, calculate_return_market df d = some m ∧
      calculate_CSAD df d (calculate_return_market df d) = some c ∧ 0 ≤ c ∧
      (c = 0 ↔ ∀ x ∈ get_returns_on_date df d, x = some m) := by
  obtain ⟨l, hl⟩ := exists_map_some _ hdef
  have hlne : l ≠ [] := by
    intro h0
    rw [h0] at hl
    simp only [List.map_nil] at hl
    exact hne hl
  have hm : calculate_return_market df d = some (l.sum / (l.length : ℚ)) := by
    rw [calculate_return_market, hl, npMean_map_some l hlne]
  have hdf : df ≠ [] := by
    intro h0
    apply hne
    rw [h0]
    rfl
  have hK : 0 < nunique df := by
    rw [nunique]
    have h1 : df.map RetRow.tsCode ≠ [] := by
      simpa [List.map_eq_nil_iff] using hdf
    have h2 : (df.map RetRow.tsCode).dedup ≠ [] := by
      simpa [List.dedup_eq_nil] using h1
    exact List.length_pos.mpr h2
  have hKQ : (1 / (nunique df : ℚ)) ≠ 0 := by
    have : (nunique df : ℚ) ≠ 0 := by
      exact_mod_cast hK.ne'
    simp [this]
  have habs : ∀ x ∈ l.map (fun r => |r - l.sum / (l.length : ℚ)|), 0 ≤ x := by
    intro x hx
    obtain ⟨r, _, rfl⟩ := List.mem_map.mp hx
    exact abs_nonneg _
  refine ⟨l.sum / (l.length : ℚ),
    (1 / (nunique df : ℚ)) * ((l.map (fun r => |r - l.sum / (l.length : ℚ)|)).sum),
    hm, ?_, ?_, ?_⟩
  · rw [hm]
    exact calculate_CSAD_eval df d l _ hl
  · exact mul_nonneg (by positivity) (List.sum_nonneg habs)
  · constructor
    · intro hc x hx
      rcases mul_eq_zero.mp hc with h0 | h0
      · exact absurd h0 hKQ
      · rw [hl] at hx
        obtain ⟨r, hr, rfl⟩ := List.mem_map.mp hx
        have hz := (list_sum_eq_zero_iff _ habs).mp h0 (|r - l.sum / (l.length : ℚ)|)
          (List.mem_map_of_mem _ hr)
        have : r = l.sum / (l.length : ℚ) := by
          rwa [abs_eq_zero, sub_eq_zero] at hz
        rw [this]
    · intro hall
      apply mul_eq_zero.mpr
      right
      apply (list_sum_eq_zero_iff _ habs).mpr
      intro x hx
      obtain ⟨r, hr, rfl⟩ := List.mem_map.mp hx
      have hs : some r = some (l.sum / (l.length : ℚ)) :=
        hall (some r) (hl ▸ List.mem_map_of_mem some hr)
      have : r = l.sum / (l.length : ℚ) := by simpa using hs
      simp [this]

/-- C9, witness: the amended statement evaluated on the three-equity
dataframe with returns `1`, `2`, `3` on the date. -/
theorem C9_csad_sign_witness :
    ∃ m c : ℚ, calculate_return_market dfABC "2020-02-03" = some m ∧
      calculate_CSAD dfABC "2020-02-03"
        (calculate_return_market dfABC "2020-02-03") = some c ∧ 0 ≤ c ∧
      (c = 0 ↔ ∀ x ∈ get_returns_on_date dfABC "2020-02-03", x = some m) :=
  C9_csad_sign dfABC "2020-02-03" (by decide) (by decide)

/-- C1: the code computes
`(1/(nunique−1)) * sqrt(Σ (r_i − R_m)^2)` — Python precedence applies the
`** (1/2)` to the sum alone — while the spec (and the notebook's own
formula) square-root the whole quotient.  On returns `1, 2, 3` the code
yields `(1/2)·√2 ≈ 0.707`, the specified formula `1`. -/
theorem C1_cssd_misplaced_sqrt :
    calculate_CSSD dfABC "2020-02-03"
        (calculate_return_market dfABC "2020-02-03") =
      some ((1 / 2) * Real.sqrt 2) ∧
    cssdClaim (get_returns_on_date dfABC "2020-02-03") = some 1 ∧
    (1 / 2 : ℝ) * Real.sqrt 2 ≠ 1 := by
  have hl : get_returns_on_date dfABC "2020-02-03" = [(1 : ℚ), 2, 3].map some := by
    decide
  have hm : calculate_return_market dfABC "2020-02-03" = some 2 := by
    rw [calculate_return_market, hl, npMean_map_some _ (by decide)]
    norm_num
  have hn : nunique dfABC = 3 := by decide
  refine ⟨?_, ?_, ?_⟩
  · rw [hm, calculate_CSSD_eval dfABC "2020-02-03" [1, 2, 3] 2 hl, hn]
    norm_num
  · have hro : (get_returns_on_date dfABC "2020-02-03").reduceOption =
        [(1 : ℚ), 2, 3] := by decide
    rw [cssdClaim, hro]
    norm_num
  · intro h
    have hs : Real.sqrt 2 ^ 2 = 2 := Real.sq_sqrt (by norm_num)
    have h2 : Real.sqrt 2 = 2 := by linarith
    rw [h2] at hs
    norm_num at hs

/-- C3: `close.shift(1)` shifts the close column over the whole sorted
dataframe, not per equity group, so the first observation of equity
`600000` receives a DEFINED log return computed from the previous row —
the last close `110` of equity `000001` — where the claim requires an
undefined value computed from no other equity's price. -/
theorem C3_shift_crosses_equities :
    (calculate_log_returns rawTwoEquities).map LogRow.ret =
      [none, some (100 * (Real.log 110 - Real.log 100)),
       some (100 * (Real.log 121 - Real.log 110)),
       some (100 * (Real.log 133 - Real.log 121))] ∧
    ((calculate_log_returns rawTwoEquities).map LogRow.ret)[2]? ≠ some none := by
  have h1 : (calculate_log_returns rawTwoEquities).map LogRow.ret =
      [none, some (100 * (Real.log 110 - Real.log 100)),
       some (100 * (Real.log 121 - Real.log 110)),
       some (100 * (Real.log 133 - Real.log 121))] := by
    simp only [calculate_log_returns, shiftedCloses, rawTwoEquities, logReturn,
      List.map_cons, List.map_nil, List.dropLast_cons₂, List.dropLast_single,
      List.zip_cons_cons, List.zip_nil_right, List.zip_nil_left]
    norm_num
    exact ⟨fun h => absurd h (by decide), fun h => absurd h (by decide),
      fun h => absurd h (by decide)⟩
  refine ⟨h1, ?_⟩
  rw [h1]
  simp

end AED
